import Mathlib

/-!
Verification development for `bingoloader.py`.

Strings are modelled as `List Char`.  The Python regexes are embedded as
specialised recursive matchers that mirror CPython `re` backtracking
semantics for the concrete patterns used by the program:

* `re.search` with a pattern beginning in a greedy `.*` succeeds exactly
  when the tail of the pattern matches at some position of the subject;
  the reported groups come from the first newline-free segment containing
  a matchable position, taking the rightmost matchable position in that
  segment (leftmost start, then greedy `.*`, noting `.` never matches a
  newline).
* Alternations try their branches in written order.
* `\s*` is greedy; since no whitespace character is a digit, backtracking
  out of `\s*` can never help, so it is modelled by `dropWhile`.
* `re.IGNORECASE` is modelled by lowercasing the subject character before
  comparing with the (lowercase) pattern character.

Only ASCII case folding and ASCII `\s` membership are modelled; the
program's vocabulary (race messages and goal URLs) is ASCII.
-/

/-- ASCII white space characters recognised by Python's `\s`. -/
def isPySpace (c : Char) : Bool :=
  c = ' ' || c = '\t' || c = '\n' || c = '\r' || c = '\x0b' || c = '\x0c'

/-- Character class `[1-5]` from `ROW_REGEX`. -/
def digit15 (c : Char) : Bool :=
  c = '1' || c = '2' || c = '3' || c = '4' || c = '5'

/-- Character class `[0-9]` from `BINGO_SEED_REGEX`. -/
def isDigit09 (c : Char) : Bool :=
  '0' ≤ c && c ≤ '9'

/-- Case-insensitive literal match: strip the (lowercase) pattern `pat`
from the front of `l`, returning the matched original-case text and the
remainder. Models a literal regex fragment under `re.IGNORECASE`. -/
def ciStrip : List Char → List Char → Option (List Char × List Char)
  | [], l => some ([], l)
  | _ :: _, [] => none
  | p :: ps, c :: cs =>
    if c.toLower = p then
      match ciStrip ps cs with
      | some (tok, rest) => some (c :: tok, rest)
      | none => none
    else none

/-- Case-sensitive literal match: strip pattern `pat` from the front of
`l`, returning the remainder. -/
def litStrip : List Char → List Char → Option (List Char)
  | [], l => some l
  | _ :: _, [] => none
  | p :: ps, c :: cs => if c = p then litStrip ps cs else none

/-- One alternative of `ROW_REGEX = .*(r|c|row|col|column)\s*([1-5])`
(with `re.IGNORECASE`): at the head of `l`, match the token `pat`, then
`\s*`, then one digit `[1-5]`.  Returns the captured token (original
case) and the captured digit. -/
def tryToken (pat l : List Char) : Option (List Char × Char) :=
  match ciStrip pat l with
  | none => none
  | some (tok, rest) =>
    match rest.dropWhile isPySpace with
    | [] => none
    | d :: _ => if digit15 d then some (tok, d) else none

/-- The alternation `(r|c|row|col|column)` of `ROW_REGEX`, tried in the
written order, followed by `\s*([1-5])`, anchored at the head of `l`. -/
def tryRowTokenAt (l : List Char) : Option (List Char × Char) :=
  match tryToken ['r'] l with
  | some res => some res
  | none =>
    match tryToken ['c'] l with
    | some res => some res
    | none =>
      match tryToken ['r', 'o', 'w'] l with
      | some res => some res
      | none =>
        match tryToken ['c', 'o', 'l'] l with
        | some res => some res
        | none => tryToken ['c', 'o', 'l', 'u', 'm', 'n'] l

/-- Greedy part of `ROW_REGEX.search`: starting just past the first
matchable position (whose result is `best`), keep the rightmost match in
the same newline-free segment (the leading greedy `.*` of the pattern
cannot cross a newline). -/
def rowGreedy (best : List Char × Char) : List Char → List Char × Char
  | [] => best
  | c :: rest =>
    if c = '\n' then best
    else
      rowGreedy
        (match tryRowTokenAt (c :: rest) with
         | some r => r
         | none => best) rest

/-- `ROW_REGEX.search(message)`: the groups `(letter-token, digit)` of
the match, or `none` when the regex does not match.  The leftmost
successful start position combined with the greedy leading `.*` yields
the rightmost matchable position inside the first newline-free segment
that contains any matchable position. -/
def rowSearch : List Char → Option (List Char × Char)
  | [] => none
  | c :: rest =>
    match tryRowTokenAt (c :: rest) with
    | some r => some (rowGreedy r rest)
    | none => rowSearch rest

/-- Truthiness of `ROW_REGEX.search(message)` (`row_result`). -/
def rowMatches (msg : List Char) : Bool :=
  (rowSearch msg).isSome

/-- Body of `BLTR_REGEX = .*bl(-|\s)?tr` / `TLBR_REGEX = .*tl(-|\s)?br`
(with `re.IGNORECASE`), anchored at the head of `l`: the two-letter
marker `first`, an optional one-character separator (hyphen or white
space), then the two-letter marker `second`. -/
def diagAt (first second l : List Char) : Bool :=
  match ciStrip first l with
  | none => false
  | some (_, r) =>
    (match r with
     | c :: r2 => (c = '-' || isPySpace c) && (ciStrip second r2).isSome
     | [] => false)
    || (ciStrip second r).isSome

/-- Truthiness of `BLTR_REGEX.search(message)`: the marker occurs at some
position (the leading `.*` makes the search position-independent). -/
def bltrMatches (msg : List Char) : Bool :=
  msg.tails.any (fun t => diagAt ['b', 'l'] ['t', 'r'] t)

/-- Truthiness of `TLBR_REGEX.search(message)`. -/
def tlbrMatches (msg : List Char) : Bool :=
  msg.tails.any (fun t => diagAt ['t', 'l'] ['b', 'r'] t)

/-- `sum(1 for el in [row_result, bltr_result, tlbr_result] if el)` from
`Result.__init__`. -/
def matchCount (msg : List Char) : Nat :=
  (if rowMatches msg then 1 else 0) +
    (if bltrMatches msg then 1 else 0) +
    (if tlbrMatches msg then 1 else 0)

/-- The classification chain of `Result.__init__` (lines 158-172): the
value stored in `self.row`.  `"---"` when the number of matching tests
is not exactly one; otherwise the branch of the single matching test,
with a dead fallback string at the end. -/
def classify (msg : List Char) : List Char :=
  if matchCount msg ≠ 1 then ['-', '-', '-']
  else
    match rowSearch msg with
    | some (row, num) =>
      if 'r' ∈ row.map Char.toLower then ['R', 'O', 'W', ' ', num]
      else ['C', 'O', 'L', ' ', num]
    | none =>
      if bltrMatches msg then ['B', 'L', '-', 'T', 'R']
      else if tlbrMatches msg then ['T', 'L', '-', 'B', 'R']
      else ("This should never happen").toList

/-- Python substring containment `pat in l` (case-sensitive). -/
def containsSub (pat l : List Char) : Bool :=
  l.tails.any (fun t => (litStrip pat t).isSome)

/-- Body of `IS_BINGO_REGEX = .*speedrunslive.com/tools/oot-bingo.*`
anchored at the head of `l`: the literal host text, one arbitrary
non-newline character (the `.` of the pattern), then the tool path. -/
def isBingoPatAt (l : List Char) : Bool :=
  match litStrip (("speedrunslive").toList) l with
  | none => false
  | some r =>
    match r with
    | [] => false
    | c :: r2 => decide (c ≠ '\n') && (litStrip (("com/tools/oot-bingo").toList) r2).isSome

/-- `IS_BINGO_REGEX.match(goal)` truthiness: the pattern body occurs at
some position reachable by the leading greedy `.*` from position 0,
i.e. at some position of the first newline-free segment. -/
def isBingoMatchFrom (l : List Char) : Bool :=
  match l with
  | [] => false
  | c :: rest => isBingoPatAt (c :: rest) || (decide (c ≠ '\n') && isBingoMatchFrom rest)

/-- `isBingoGoal` (lines 74-80): lowercase the goal, require the bingo
URL pattern, and reject the excluded variant substrings (`double` also
covers `anti`). -/
def isBingoGoal (goal : List Char) : Bool :=
  isBingoMatchFrom (goal.map Char.toLower)
    && !(containsSub (("short").toList) (goal.map Char.toLower))
    && !(containsSub (("blackout").toList) (goal.map Char.toLower))
    && !(containsSub (("double").toList) (goal.map Char.toLower)
         || containsSub (("anti").toList) (goal.map Char.toLower))

/-- Fragment `seed=([0-9]+)` of `BINGO_SEED_REGEX` anchored at the head
of `l` (case-sensitive): the literal `seed=`, then the maximal (greedy)
nonempty digit run, which is the captured group. -/
def seedDigitsAt (l : List Char) : Option (List Char) :=
  match litStrip (("seed=").toList) l with
  | none => none
  | some r =>
    match r.takeWhile isDigit09 with
    | [] => none
    | d :: ds => some (d :: ds)

/-- Scan a newline-free segment (the greedy `.*` of `BINGO_SEED_REGEX`
cannot cross a newline) keeping the capture of the rightmost `seed=`
occurrence. -/
def lastSeedIn (best : Option (List Char)) : List Char → Option (List Char)
  | [] => best
  | c :: rest =>
    if c = '\n' then best
    else
      lastSeedIn
        (match seedDigitsAt (c :: rest) with
         | some d => some d
         | none => best) rest

/-- `getBingoSeed` (lines 82-85): `BINGO_SEED_REGEX = \?.*seed=([0-9]+)`
searched over the original (not lowercased) goal; the leftmost `?` whose
newline-free segment contains `seed=<digits>` wins, and the greedy `.*`
selects the rightmost such occurrence in that segment. Returns the
captured digit run (`result.group(1)`), or `none` (Python `None`). -/
def getBingoSeed : List Char → Option (List Char)
  | [] => none
  | c :: rest =>
    if c = '?' then
      match lastSeedIn none rest with
      | some d => some d
      | none => getBingoSeed rest
    else getBingoSeed rest

/-- Numeric value of a digit run (the "integer identity" of a seed). -/
def digitsToNat (l : List Char) : Nat :=
  l.foldl (fun a c => a * 10 + (c.toNat - ('0').toNat)) 0

/-- Python `datetime` values, compared field-lexicographically. -/
structure PyDatetime where
  year : Nat
  month : Nat
  day : Nat
  hour : Nat
  minute : Nat
  second : Nat
  microsecond : Nat
deriving DecidableEq, Repr

/-- Python `datetime` strict `<`: lexicographic on the fields. -/
def dtLt (a b : PyDatetime) : Bool :=
  if a.year ≠ b.year then decide (a.year < b.year)
  else if a.month ≠ b.month then decide (a.month < b.month)
  else if a.day ≠ b.day then decide (a.day < b.day)
  else if a.hour ≠ b.hour then decide (a.hour < b.hour)
  else if a.minute ≠ b.minute then decide (a.minute < b.minute)
  else if a.second ≠ b.second then decide (a.second < b.second)
  else decide (a.microsecond < b.microsecond)

/-- `datetime(y, m, d)`. -/
def mkDate (y m d : Nat) : PyDatetime :=
  ⟨y, m, d, 0, 0, 0, 0⟩

/-- `BINGO_VERSIONS` (lines 90-99), most recent first. -/
def BINGO_VERSIONS : List (PyDatetime × String) :=
  [(mkDate 2016 6 29, "v9.1"),
   (mkDate 2016 4 8, "v9.0"),
   (mkDate 2016 1 29, "v8.5"),
   (mkDate 2014 12 13, "v8.4"),
   (mkDate 2014 8 21, "v8.3"),
   (mkDate 2014 6 13, "v8.2"),
   (mkDate 2013 12 12, "v8.1"),
   (mkDate 2013 9 11, "v8")]

/-- `CURRENT_VERSION = BINGO_VERSIONS[0][1]`. -/
def CURRENT_VERSION : String :=
  (BINGO_VERSIONS.headD (mkDate 0 0 0, "")).2

/-- The loop of `getBingoVersionAt` over a (suffix of the) version
table: first entry with `raceDate > versionDate` wins; exhausting the
table falls back to `CURRENT_VERSION` (the `print` diagnostic on that
path is I/O and not modelled). -/
def versionScan : List (PyDatetime × String) → PyDatetime → String
  | [], _ => CURRENT_VERSION
  | (versionDate, version) :: rest, raceDate =>
    if dtLt versionDate raceDate then version else versionScan rest raceDate

/-- `getBingoVersionAt` (lines 103-108). -/
def getBingoVersionAt (raceDate : PyDatetime) : String :=
  versionScan BINGO_VERSIONS raceDate

/-- `Board` (lines 179-184): seed, version, flat goal list, and the grid
derived by slicing the flat list into five rows of five. -/
structure Board where
  seed : Int
  version : String
  goalsList : List String
  goalsGrid : List (List String)
deriving DecidableEq, Repr

/-- `Board.__init__`: `goalsGrid = [goalsList[row*5:row*5+5] for row in range(5)]`. -/
def Board.ofGoals (seed : Int) (version : String) (goalsList : List String) : Board :=
  { seed := seed, version := version, goalsList := goalsList,
    goalsGrid := (List.range 5).map (fun row => (goalsList.drop (row * 5)).take 5) }

/-- `Board.getGoalsFromRowString` (lines 186-198).  `int(rowString[-1])`
is modelled by the numeric value of the last character; the grid lookups
use `getD` (the Python indexings cannot go out of range for the row
strings the program produces). -/
def Board.getGoalsFromRowString (b : Board) (rowString : List Char) : List String :=
  if containsSub ['R', 'O', 'W'] rowString then
    (b.goalsGrid.getD ((rowString.getLastD '0').toNat - ('0').toNat - 1) [])
  else if containsSub ['C', 'O', 'L'] rowString then
    (List.range 5).map
      (fun row =>
        (b.goalsGrid.getD row []).getD ((rowString.getLastD '0').toNat - ('0').toNat - 1) "")
  else if rowString = ['T', 'L', '-', 'B', 'R'] then
    (List.range 5).map (fun index => (b.goalsGrid.getD index []).getD index "")
  else if rowString = ['B', 'L', '-', 'T', 'R'] then
    (List.range 5).map (fun col => (b.goalsGrid.getD (4 - col) []).getD col "")
  else []

/-- Label at 0-based grid position `(r, c)` of a board. -/
def gridCell (b : Board) (r c : Nat) : String :=
  (b.goalsGrid.getD r []).getD c ""

/-- The classifier's output type as described by the spec:
`ROW(n)`/`COLUMN(n)` carry `n - 1` as a `Fin 5`. -/
inductive LineIdentifier where
  | row (n : Fin 5)
  | col (n : Fin 5)
  | diagTlBr
  | diagBlTr
  | unknown
deriving DecidableEq, Repr

/-- The digit `n` of `ROW(n)`/`COLUMN(n)` as a character. -/
def digitChar (n : Fin 5) : Char :=
  (['1', '2', '3', '4', '5'] : List Char).getD n.1 '0'

/-- The row strings `Result.__init__` stores for each line identifier. -/
def renderLine : LineIdentifier → List Char
  | .row n => ['R', 'O', 'W', ' ', digitChar n]
  | .col n => ['C', 'O', 'L', ' ', digitChar n]
  | .diagTlBr => ['T', 'L', '-', 'B', 'R']
  | .diagBlTr => ['B', 'L', '-', 'T', 'R']
  | .unknown => ['-', '-', '-']

/-- One entry of `raceJson["results"]` as consumed by `Result.__init__`. -/
structure ResultJson where
  player : String
  time : Int
  oldtrueskill : Int
  message : List Char
deriving DecidableEq, Repr

/-- The data computed by `Result.__init__` and reported by
`Result.getInfo`: player, time (`none` is the `"forfeit"` sentinel for a
non-positive time), rating, line label, raw message and projected
goals. -/
structure ReportRow where
  player : String
  time : Option Int
  elo : Int
  row : List Char
  message : List Char
  goals : List String
deriving DecidableEq, Repr

/-- `Result.__init__` (lines 151-173) for a given board. -/
def buildResult (board : Board) (rj : ResultJson) : ReportRow :=
  { player := rj.player,
    time := if rj.time > 0 then some rj.time else none,
    elo := rj.oldtrueskill,
    row := classify rj.message,
    message := rj.message,
    goals := board.getGoalsFromRowString (classify rj.message) }

/-- A race record as consumed by `Race.__init__`. -/
structure RaceJson where
  raceid : Int
  date : PyDatetime
  goal : List Char
  results : List ResultJson
deriving DecidableEq, Repr

/-- The per-result rows of a race report
(`self.results = [Result(resultJson, self.board) for ...]`). -/
def buildRaceRows (race : RaceJson) (board : Board) : List ReportRow :=
  race.results.map (buildResult board)

/-- The adjacency form of the row/column phrase: some suffix of the
message starts with a letter token, optional white space, then
immediately a digit `1`-`5`. -/
def hasRowColPhrase (msg : List Char) : Bool :=
  msg.tails.any (fun t => (tryRowTokenAt t).isSome)

/-- The row/column condition in the words of the claim under scrutiny: a
letter token somewhere in the message with a digit `1`-`5` occurring
anywhere later in the message. -/
def rowTokenThenDigitSomewhere (msg : List Char) : Bool :=
  msg.tails.any (fun t =>
    ([['r'], ['c'], ['r', 'o', 'w'], ['c', 'o', 'l'], ['c', 'o', 'l', 'u', 'm', 'n']] :
        List (List Char)).any
      (fun pat =>
        match ciStrip pat t with
        | some (_, rest) => rest.any digit15
        | none => false))

/-- A `seed=<digits>` run somewhere strictly before the next newline. -/
def segHasSeed : List Char → Bool
  | [] => false
  | c :: rest =>
    if c = '\n' then false
    else (seedDigitsAt (c :: rest)).isSome || segHasSeed rest

/-- The seed pattern is present: some `?` is followed, with no newline
in between, by `seed=<digits>`. -/
def seedPresent : List Char → Bool
  | [] => false
  | c :: rest => (decide (c = '?') && segHasSeed rest) || seedPresent rest

/-- The seed condition in the words of the claim under scrutiny: some
`?` with a `seed=<digits>` run anywhere after it. -/
def seedAfterQLoose : List Char → Bool
  | [] => false
  | c :: rest =>
    (decide (c = '?') && rest.tails.any (fun t => (seedDigitsAt t).isSome))
      || seedAfterQLoose rest

/-- The eligibility condition in the words of the claim under scrutiny:
the URL shape must include a `seed=` query parameter with digits, besides
the hostname and tool path, and no excluded substring may occur. -/
def claimedEligibleWithSeed (goal : List Char) : Bool :=
  (isBingoMatchFrom (goal.map Char.toLower) && seedPresent (goal.map Char.toLower))
    && !(containsSub (("short").toList) (goal.map Char.toLower))
    && !(containsSub (("blackout").toList) (goal.map Char.toLower))
    && !(containsSub (("double").toList) (goal.map Char.toLower))
    && !(containsSub (("anti").toList) (goal.map Char.toLower))

/-! ### Classifier lemmas -/

lemma tryToken_digit (pat l tok : List Char) (d : Char)
    (h : tryToken pat l = some (tok, d)) : digit15 d = true := by
  unfold tryToken at h
  cases h1 : ciStrip pat l with
  | none => rw [h1] at h; exact absurd h (by simp)
  | some p =>
    obtain ⟨tok0, rest⟩ := p
    rw [h1] at h
    dsimp only at h
    cases h2 : rest.dropWhile isPySpace with
    | nil => rw [h2] at h; exact absurd h (by simp)
    | cons d0 ds =>
      rw [h2] at h
      dsimp only at h
      by_cases hd : digit15 d0 = true
      · rw [if_pos hd] at h
        simp only [Option.some.injEq, Prod.mk.injEq] at h
        exact h.2 ▸ hd
      · rw [if_neg hd] at h
        exact absurd h (by simp)

lemma tryRowTokenAt_digit (l tok : List Char) (d : Char)
    (h : tryRowTokenAt l = some (tok, d)) : digit15 d = true := by
  unfold tryRowTokenAt at h
  cases h1 : tryToken ['r'] l with
  | some res =>
    rw [h1] at h; dsimp only at h
    exact tryToken_digit _ _ _ _ (h ▸ h1)
  | none =>
    rw [h1] at h; dsimp only at h
    cases h2 : tryToken ['c'] l with
    | some res =>
      rw [h2] at h; dsimp only at h
      exact tryToken_digit _ _ _ _ (h ▸ h2)
    | none =>
      rw [h2] at h; dsimp only at h
      cases h3 : tryToken ['r', 'o', 'w'] l with
      | some res =>
        rw [h3] at h; dsimp only at h
        exact tryToken_digit _ _ _ _ (h ▸ h3)
      | none =>
        rw [h3] at h; dsimp only at h
        cases h4 : tryToken ['c', 'o', 'l'] l with
        | some res =>
          rw [h4] at h; dsimp only at h
          exact tryToken_digit _ _ _ _ (h ▸ h4)
        | none =>
          rw [h4] at h; dsimp only at h
          exact tryToken_digit _ _ _ _ h

lemma rowGreedy_digit (l : List Char) : ∀ best : List Char × Char,
    digit15 best.2 = true → digit15 (rowGreedy best l).2 = true := by
  induction l with
  | nil => intro best h; exact h
  | cons c rest ih =>
    intro best h
    unfold rowGreedy
    split
    · exact h
    · apply ih
      cases htr : tryRowTokenAt (c :: rest) with
      | some r =>
        obtain ⟨t2, d2⟩ := r
        exact tryRowTokenAt_digit _ _ _ htr
      | none => exact h

lemma rowSearch_digit (msg : List Char) (tok : List Char) (d : Char)
    (h : rowSearch msg = some (tok, d)) : digit15 d = true := by
  induction msg with
  | nil => exact absurd h (by simp [rowSearch])
  | cons c rest ih =>
    unfold rowSearch at h
    cases htr : tryRowTokenAt (c :: rest) with
    | some r =>
      rw [htr] at h
      dsimp only at h
      simp only [Option.some.injEq] at h
      have hb : digit15 r.2 = true := by
        obtain ⟨t2, d2⟩ := r
        exact tryRowTokenAt_digit _ _ _ htr
      have := rowGreedy_digit rest r hb
      rw [h] at this
      exact this
    | none =>
      rw [htr] at h
      dsimp only at h
      exact ih h

lemma rowSearch_isSome (msg : List Char) :
    (rowSearch msg).isSome = hasRowColPhrase msg := by
  induction msg with
  | nil => decide
  | cons c rest ih =>
    unfold rowSearch hasRowColPhrase
    cases htr : tryRowTokenAt (c :: rest) with
    | some r => simp [List.tails_cons, htr]
    | none =>
      dsimp only
      rw [ih]
      simp [hasRowColPhrase, List.tails_cons, htr]

lemma classify_of_count_ne_one (msg : List Char) (h : matchCount msg ≠ 1) :
    classify msg = ['-', '-', '-'] := by
  unfold classify
  rw [if_pos h]

lemma classify_ne_unknown_of_count_one (msg : List Char) (h : matchCount msg = 1) :
    classify msg ≠ ['-', '-', '-'] := by
  unfold classify
  rw [if_neg (by omega)]
  cases hr : rowSearch msg with
  | some p =>
    obtain ⟨tok, d⟩ := p
    dsimp only
    split <;> intro hEq <;>
      (have hl := congrArg List.length hEq;
       simp only [List.length_cons, List.length_nil] at hl; omega)
  | none =>
    dsimp only
    split
    · intro hEq; exact absurd hEq (by decide)
    · split
      · intro hEq; exact absurd hEq (by decide)
      · intro hEq; exact absurd hEq (by decide)

/-! ### Claims about the classifier -/

/-- Claim C1: for every message, the classification is UNKNOWN (the
placeholder `"---"`) exactly when the number of the three pattern tests
that match the message is zero or greater than one; in particular a
message matching both the row/column test and a diagonal test, or none
of the three tests, classifies as UNKNOWN. -/
theorem classify_unknown_iff (msg : List Char) :
    (classify msg = ['-', '-', '-'] ↔ (matchCount msg = 0 ∨ 1 < matchCount msg)) ∧
    (rowMatches msg = true → (bltrMatches msg = true ∨ tlbrMatches msg = true) →
      classify msg = ['-', '-', '-']) ∧
    (rowMatches msg = false → bltrMatches msg = false → tlbrMatches msg = false →
      classify msg = ['-', '-', '-']) := by
  have hmain : classify msg = ['-', '-', '-'] ↔ matchCount msg ≠ 1 := by
    constructor
    · intro h hc
      exact classify_ne_unknown_of_count_one msg hc h
    · exact classify_of_count_ne_one msg
  refine ⟨hmain.trans (by omega), ?_, ?_⟩
  · intro hr hd
    apply classify_of_count_ne_one
    unfold matchCount
    rw [hr]
    rcases hd with h | h
    · rw [h]; cases tlbrMatches msg <;> simp
    · rw [h]; cases bltrMatches msg <;> simp
  · intro h1 h2 h3
    apply classify_of_count_ne_one
    unfold matchCount
    rw [h1, h2, h3]
    simp

/-- Witness for C1 at concrete messages: an ambiguous message (row
phrase and diagonal marker) and a message matching nothing both
classify as the placeholder. -/
theorem classify_unknown_iff_witness :
    classify (("row 3 and tl-br").toList) = ['-', '-', '-'] ∧
    classify (("gg").toList) = ['-', '-', '-'] :=
  ⟨(classify_unknown_iff (("row 3 and tl-br").toList)).2.1 (by decide) (Or.inr (by decide)),
   (classify_unknown_iff (("gg").toList)).2.2 (by decide) (by decide) (by decide)⟩

/-- Counterexample to claim C2 as stated: in the message `"row x 3"` a
row token is followed (with whitespace) by a digit 1-5 occurring later
in the message, yet `ROW_REGEX` does not match, because the regex
requires the digit to follow the token immediately after the optional
whitespace. -/
theorem rowcol_anywhere_counterexample :
    rowTokenThenDigitSomewhere (("row x 3").toList) = true ∧
    rowMatches (("row x 3").toList) = false := by decide

/-- Claim C2 (amended): the row/column test matches exactly when the
message contains, case-insensitively, a letter token `r`, `c`, `row`,
`col` or `column` followed by optional whitespace then immediately a
digit 1-5; and when it is the only matching test, `classify` returns
`"ROW n"` or `"COL n"`, the captured letter-token deciding ROW versus
COLUMN (whether its lowercasing contains `r`) and the captured digit
giving `n`. -/
theorem rowcol_classification (msg : List Char) :
    (rowMatches msg = hasRowColPhrase msg) ∧
    (∀ tok d, matchCount msg = 1 → rowSearch msg = some (tok, d) →
      digit15 d = true ∧
      classify msg =
        (if 'r' ∈ tok.map Char.toLower then ['R', 'O', 'W', ' ', d]
         else ['C', 'O', 'L', ' ', d])) := by
  refine ⟨rowSearch_isSome msg, ?_⟩
  intro tok d hc hr
  refine ⟨rowSearch_digit msg tok d hr, ?_⟩
  unfold classify
  rw [if_neg (by omega), hr]

/-- Witness for C2 at a concrete message: `"won by ROW 3!"` has one
matching test and the captured token `ROW` with digit `3` produce the
label `"ROW 3"`. -/
theorem rowcol_classification_witness :
    classify (("won by ROW 3!").toList) = ['R', 'O', 'W', ' ', '3'] := by
  have h := (rowcol_classification (("won by ROW 3!").toList)).2
    ['R', 'O', 'W'] '3' (by decide) (by decide)
  exact h.2.trans (by decide)

/-- Claim C10: the fallback branch assigning `"This should never
happen"` is unreachable: the classifier's output is always the
placeholder or one of the structured labels. -/
theorem never_branch_unreachable (msg : List Char) :
    classify msg ≠ ("This should never happen").toList ∧
    (classify msg = ['-', '-', '-'] ∨
      (∃ d, digit15 d = true ∧
        (classify msg = ['R', 'O', 'W', ' ', d] ∨ classify msg = ['C', 'O', 'L', ' ', d])) ∨
      classify msg = ['B', 'L', '-', 'T', 'R'] ∨
      classify msg = ['T', 'L', '-', 'B', 'R']) := by
  by_cases hc : matchCount msg = 1
  · have hshape : classify msg = ['-', '-', '-'] ∨
        (∃ d, digit15 d = true ∧
          (classify msg = ['R', 'O', 'W', ' ', d] ∨ classify msg = ['C', 'O', 'L', ' ', d])) ∨
        classify msg = ['B', 'L', '-', 'T', 'R'] ∨
        classify msg = ['T', 'L', '-', 'B', 'R'] := by
      unfold classify
      rw [if_neg (by omega)]
      cases hr : rowSearch msg with
      | some p =>
        obtain ⟨tok, d⟩ := p
        have hd := rowSearch_digit msg tok d hr
        refine Or.inr (Or.inl ⟨d, hd, ?_⟩)
        dsimp only
        split
        · exact Or.inl rfl
        · exact Or.inr rfl
      | none =>
        cases hb : bltrMatches msg with
        | true =>
          refine Or.inr (Or.inr (Or.inl ?_))
          simp [hb]
        | false =>
          have htl : tlbrMatches msg = true := by
            have hro : rowMatches msg = false := by
              unfold rowMatches; rw [hr]; rfl
            unfold matchCount at hc
            rw [hro, hb] at hc
            cases htl2 : tlbrMatches msg
            · rw [htl2] at hc; simp at hc
            · rfl
          refine Or.inr (Or.inr (Or.inr ?_))
          simp [hb, htl]
    refine ⟨?_, hshape⟩
    have h24 : (("This should never happen").toList).length = 24 := rfl
    rcases hshape with h | ⟨d, hd, h | h⟩ | h | h <;> rw [h] <;> intro hEq <;>
      (have hl := congrArg List.length hEq;
       rw [h24] at hl;
       simp only [List.length_cons, List.length_nil] at hl; omega)
  · have hu := classify_of_count_ne_one msg hc
    exact ⟨by rw [hu]; decide, Or.inl hu⟩

/-- Witness for C10 at a concrete message. -/
theorem never_branch_unreachable_witness :
    classify (("gg won").toList) ≠ ("This should never happen").toList :=
  (never_branch_unreachable (("gg won").toList)).1

/-! ### Claims about the board projection -/

lemma list5_eq_getD (l : List String) (h : l.length = 5) :
    l = [l.getD 0 "", l.getD 1 "", l.getD 2 "", l.getD 3 "", l.getD 4 ""] := by
  rcases l with - | ⟨a, - | ⟨b, - | ⟨c, - | ⟨d, - | ⟨e, - | ⟨f, l⟩⟩⟩⟩⟩⟩ <;>
    first
      | rfl
      | simp at h

/-- Claim C3: on a board built from exactly 25 labels, the projection
maps `ROW(n)` to grid row `n-1` left to right, `COLUMN(n)` to the
labels at column index `n-1` in row order, `DIAG_TL_BR` to the labels
at `(0,0),(1,1),(2,2),(3,3),(4,4)`, `DIAG_BL_TR` to the labels at
`(4,0),(3,1),(2,2),(1,3),(0,4)`, and UNKNOWN to the empty sequence.
A `Fin 5` value `i` stands for the line number `n = i + 1`. -/
theorem board_projection_cells (sd : Int) (ver : String) (gs : List String)
    (h : gs.length = 25) :
    (∀ i : Fin 5,
      (Board.ofGoals sd ver gs).getGoalsFromRowString (renderLine (.row i)) =
        [gridCell (Board.ofGoals sd ver gs) i.1 0, gridCell (Board.ofGoals sd ver gs) i.1 1,
         gridCell (Board.ofGoals sd ver gs) i.1 2, gridCell (Board.ofGoals sd ver gs) i.1 3,
         gridCell (Board.ofGoals sd ver gs) i.1 4]) ∧
    (∀ i : Fin 5,
      (Board.ofGoals sd ver gs).getGoalsFromRowString (renderLine (.col i)) =
        [gridCell (Board.ofGoals sd ver gs) 0 i.1, gridCell (Board.ofGoals sd ver gs) 1 i.1,
         gridCell (Board.ofGoals sd ver gs) 2 i.1, gridCell (Board.ofGoals sd ver gs) 3 i.1,
         gridCell (Board.ofGoals sd ver gs) 4 i.1]) ∧
    ((Board.ofGoals sd ver gs).getGoalsFromRowString (renderLine .diagTlBr) =
        [gridCell (Board.ofGoals sd ver gs) 0 0, gridCell (Board.ofGoals sd ver gs) 1 1,
         gridCell (Board.ofGoals sd ver gs) 2 2, gridCell (Board.ofGoals sd ver gs) 3 3,
         gridCell (Board.ofGoals sd ver gs) 4 4]) ∧
    ((Board.ofGoals sd ver gs).getGoalsFromRowString (renderLine .diagBlTr) =
        [gridCell (Board.ofGoals sd ver gs) 4 0, gridCell (Board.ofGoals sd ver gs) 3 1,
         gridCell (Board.ofGoals sd ver gs) 2 2, gridCell (Board.ofGoals sd ver gs) 1 3,
         gridCell (Board.ofGoals sd ver gs) 0 4]) ∧
    ((Board.ofGoals sd ver gs).getGoalsFromRowString (renderLine .unknown) = []) := by
  refine ⟨?_, ?_, rfl, rfl, rfl⟩
  · intro i
    fin_cases i
    · exact list5_eq_getD (List.take 5 (List.drop (0 * 5) gs))
        (by simp only [List.length_take, List.length_drop, h]; omega)
    · exact list5_eq_getD (List.take 5 (List.drop (1 * 5) gs))
        (by simp only [List.length_take, List.length_drop, h]; omega)
    · exact list5_eq_getD (List.take 5 (List.drop (2 * 5) gs))
        (by simp only [List.length_take, List.length_drop, h]; omega)
    · exact list5_eq_getD (List.take 5 (List.drop (3 * 5) gs))
        (by simp only [List.length_take, List.length_drop, h]; omega)
    · exact list5_eq_getD (List.take 5 (List.drop (4 * 5) gs))
        (by simp only [List.length_take, List.length_drop, h]; omega)
  · intro i
    fin_cases i <;> rfl

/-- Witness for C3: on a concrete 25-label board, `ROW 3` projects to
the third grid row. -/
theorem board_projection_cells_witness :
    (Board.ofGoals 0 "v9.1"
      ["a", "b", "c", "d", "e", "f", "g", "h", "i", "j", "k", "l", "m",
       "n", "o", "p", "q", "r", "s", "t", "u", "v", "w", "x", "y"]).getGoalsFromRowString
      (renderLine (.row (2 : Fin 5))) = ["k", "l", "m", "n", "o"] := by
  have h := (board_projection_cells 0 "v9.1"
    ["a", "b", "c", "d", "e", "f", "g", "h", "i", "j", "k", "l", "m",
     "n", "o", "p", "q", "r", "s", "t", "u", "v", "w", "x", "y"] (by decide)).1 (2 : Fin 5)
  exact h.trans (by decide)

/-- Claim C7: on a board built from exactly 25 labels, the projection
output has length 5 for each of the line identifiers `ROW(1..5)`,
`COLUMN(1..5)`, `DIAG_TL_BR`, `DIAG_BL_TR`, and length 0 exactly when
the identifier is UNKNOWN. -/
theorem projection_length_invariant (sd : Int) (ver : String) (gs : List String)
    (h : gs.length = 25) (li : LineIdentifier) :
    ((Board.ofGoals sd ver gs).getGoalsFromRowString (renderLine li)).length =
      if li = LineIdentifier.unknown then 0 else 5 := by
  cases li with
  | row n =>
    fin_cases n
    · show (List.take 5 (List.drop (0 * 5) gs)).length = 5
      simp only [List.length_take, List.length_drop, h]; omega
    · show (List.take 5 (List.drop (1 * 5) gs)).length = 5
      simp only [List.length_take, List.length_drop, h]; omega
    · show (List.take 5 (List.drop (2 * 5) gs)).length = 5
      simp only [List.length_take, List.length_drop, h]; omega
    · show (List.take 5 (List.drop (3 * 5) gs)).length = 5
      simp only [List.length_take, List.length_drop, h]; omega
    · show (List.take 5 (List.drop (4 * 5) gs)).length = 5
      simp only [List.length_take, List.length_drop, h]; omega
  | col n => fin_cases n <;> rfl
  | diagTlBr => rfl
  | diagBlTr => rfl
  | unknown => rfl

/-- Witness for C7: concrete lengths on a concrete 25-label board. -/
theorem projection_length_invariant_witness :
    ((Board.ofGoals 0 "v9.1"
      ["a", "b", "c", "d", "e", "f", "g", "h", "i", "j", "k", "l", "m",
       "n", "o", "p", "q", "r", "s", "t", "u", "v", "w", "x", "y"]).getGoalsFromRowString
      (renderLine (.col (0 : Fin 5)))).length = 5 := by
  have h := projection_length_invariant 0 "v9.1"
    ["a", "b", "c", "d", "e", "f", "g", "h", "i", "j", "k", "l", "m",
     "n", "o", "p", "q", "r", "s", "t", "u", "v", "w", "x", "y"] (by decide) (.col (0 : Fin 5))
  exact h.trans (by decide)

/-! ### Claims about eligibility and seed extraction -/

/-- Counterexample to claim C4 as stated: the goal text
`"speedrunslive.com/tools/oot-bingo"` has no `seed=` query parameter at
all, so the URL shape demanded by the claim fails, yet `isBingoGoal`
accepts it — `IS_BINGO_REGEX` does not require a seed parameter. -/
theorem eligibility_seed_counterexample :
    isBingoGoal (("speedrunslive.com/tools/oot-bingo").toList) = true ∧
    claimedEligibleWithSeed (("speedrunslive.com/tools/oot-bingo").toList) = false := by
  decide

/-- Claim C4 (amended): eligibility holds if and only if the lower-cased
goal text matches the bingo-tool hostname-plus-tool-path pattern (with
no requirement of a `seed=` query parameter) and contains none of the
substrings `short`, `blackout`, `double`, `anti`; in particular any
goal text containing `short` or `blackout` is rejected. -/
theorem eligibility_characterization (goal : List Char) :
    (isBingoGoal goal = true ↔
      (isBingoMatchFrom (goal.map Char.toLower) = true ∧
       containsSub (("short").toList) (goal.map Char.toLower) = false ∧
       containsSub (("blackout").toList) (goal.map Char.toLower) = false ∧
       containsSub (("double").toList) (goal.map Char.toLower) = false ∧
       containsSub (("anti").toList) (goal.map Char.toLower) = false)) ∧
    (containsSub (("short").toList) (goal.map Char.toLower) = true →
      isBingoGoal goal = false) ∧
    (containsSub (("blackout").toList) (goal.map Char.toLower) = true →
      isBingoGoal goal = false) := by
  unfold isBingoGoal
  refine ⟨?_, ?_, ?_⟩
  · cases isBingoMatchFrom (goal.map Char.toLower) <;>
      cases containsSub (("short").toList) (goal.map Char.toLower) <;>
      cases containsSub (("blackout").toList) (goal.map Char.toLower) <;>
      cases containsSub (("double").toList) (goal.map Char.toLower) <;>
      cases containsSub (("anti").toList) (goal.map Char.toLower) <;>
      simp
  · intro h; rw [h]; simp
  · intro h; rw [h]; simp

/-- Witness for C4: a URL-shaped goal carrying `short` (and one carrying
`blackout`) is rejected. -/
theorem eligibility_characterization_witness :
    isBingoGoal (("speedrunslive.com/tools/oot-bingo/?seed=1 short").toList) = false ∧
    isBingoGoal (("blackout speedrunslive.com/tools/oot-bingo/?seed=1").toList) = false :=
  ⟨(eligibility_characterization
      (("speedrunslive.com/tools/oot-bingo/?seed=1 short").toList)).2.1 (by decide),
   (eligibility_characterization
      (("blackout speedrunslive.com/tools/oot-bingo/?seed=1").toList)).2.2 (by decide)⟩

lemma lastSeedIn_isSome (l : List Char) : ∀ best : Option (List Char),
    (lastSeedIn best l).isSome = (best.isSome || segHasSeed l) := by
  induction l with
  | nil => intro best; simp [lastSeedIn, segHasSeed]
  | cons c rest ih =>
    intro best
    unfold lastSeedIn segHasSeed
    split
    · simp
    · rw [ih]
      cases hs : seedDigitsAt (c :: rest) with
      | some d => simp
      | none => simp

lemma getBingoSeed_isSome (goal : List Char) :
    (getBingoSeed goal).isSome = seedPresent goal := by
  induction goal with
  | nil => rfl
  | cons c rest ih =>
    unfold getBingoSeed seedPresent
    by_cases hq : c = '?'
    · rw [if_pos hq]
      cases hl : lastSeedIn none rest with
      | some d =>
        have := lastSeedIn_isSome rest none
        rw [hl] at this
        simp only [Option.isSome_some, Option.isSome_none, Bool.false_or] at this
        simp [hq, ← this]
      | none =>
        have := lastSeedIn_isSome rest none
        rw [hl] at this
        simp only [Option.isSome_none, Bool.false_or] at this
        simp [hq, ← this, ih]
    · rw [if_neg hq]
      simp [hq, ih]

/-- Counterexample to claim C5 as stated: in the goal text
`"?\nseed=12"` a `seed=<digits>` run occurs after a `?`, yet
`getBingoSeed` returns no value, because the `.*` of
`BINGO_SEED_REGEX` cannot cross the newline between them. -/
theorem seed_newline_counterexample :
    seedAfterQLoose (("?\nseed=12").toList) = true ∧
    getBingoSeed (("?\nseed=12").toList) = none := by decide

/-- Claim C5 (amended): seed extraction succeeds exactly when a
`seed=<digits>` query parameter occurs after a `?` with no newline in
between (the pattern cannot span a line break), returning the digit
run; on `".../oot-bingo/?seed=12345"` it returns the digit run `12345`,
whose numeric value is the integer seed identity 12345. -/
theorem seed_extraction_characterization :
    (∀ goal : List Char, (getBingoSeed goal).isSome = seedPresent goal) ∧
    getBingoSeed (("http://www.speedrunslive.com/tools/oot-bingo/?seed=12345").toList) =
      some ['1', '2', '3', '4', '5'] ∧
    digitsToNat ['1', '2', '3', '4', '5'] = 12345 :=
  ⟨getBingoSeed_isSome, by decide, by decide⟩

/-- Claim C9: a goal string whose bingo URL carries an upper-case
`SEED=` parameter is accepted by the (lowercasing) eligibility check,
yet the (case-sensitive) seed extraction returns no value. -/
theorem eligible_but_no_seed :
    isBingoGoal (("speedrunslive.com/tools/oot-bingo/?SEED=123").toList) = true ∧
    getBingoSeed (("speedrunslive.com/tools/oot-bingo/?SEED=123").toList) = none := by
  decide

/-! ### Claims about version resolution and report building -/

lemma versionScan_eq_find (l : List (PyDatetime × String)) (d : PyDatetime) :
    versionScan l d =
      ((l.find? (fun p => dtLt p.1 d)).map Prod.snd).getD CURRENT_VERSION := by
  induction l with
  | nil => rfl
  | cons p rest ih =>
    obtain ⟨vd, v⟩ := p
    cases hlt : dtLt vd d <;>
      simp [versionScan, List.find?_cons, hlt, ih]

/-- Claim C6: the version resolver scans the table most-recent-first and
returns the tag of the first entry whose cutoff is strictly before the
race date; when no cutoff is strictly before the race date it falls
back to the most recent tag `"v9.1"` (equal to `CURRENT_VERSION`, the
head of the table).  The diagnostic print on the fallback path is I/O
and outside the embedding. -/
theorem version_resolution (raceDate : PyDatetime) :
    (getBingoVersionAt raceDate =
      ((BINGO_VERSIONS.find? (fun p => dtLt p.1 raceDate)).map Prod.snd).getD
        CURRENT_VERSION) ∧
    ((∀ p ∈ BINGO_VERSIONS, dtLt p.1 raceDate = false) →
      getBingoVersionAt raceDate = "v9.1") ∧
    CURRENT_VERSION = "v9.1" := by
  refine ⟨versionScan_eq_find BINGO_VERSIONS raceDate, ?_, rfl⟩
  intro hall
  have hnone : BINGO_VERSIONS.find? (fun p => dtLt p.1 raceDate) = none := by
    rw [List.find?_eq_none]
    intro p hp
    simp [hall p hp]
  unfold getBingoVersionAt
  rw [versionScan_eq_find, hnone]
  rfl

/-- Witness for C6: a race predating every cutoff resolves to the most
recent tag. -/
theorem version_resolution_witness :
    getBingoVersionAt (mkDate 2000 1 1) = "v9.1" :=
  (version_resolution (mkDate 2000 1 1)).2.1 (by decide)

/-- Claim C8: building the report rows twice from identical inputs (the
same race record and the same board) yields identical rows — the
per-result composition of classification and projection into
player/time/rating/line-label/message/goal-sequence rows is a
deterministic, side-effect-free function of its inputs. -/
theorem report_build_deterministic (r1 r2 : RaceJson) (b1 b2 : Board)
    (hr : r1 = r2) (hb : b1 = b2) :
    buildRaceRows r1 b1 = buildRaceRows r2 b2 := by
  subst hr
  subst hb
  rfl

/-- Witness for C8 at a concrete race and board. -/
theorem report_build_deterministic_witness :
    buildRaceRows
      ⟨1, mkDate 2016 7 1, ("speedrunslive.com/tools/oot-bingo/?seed=12345").toList,
       [⟨"runnerA", 3600, 1500, ("won with row 1").toList⟩,
        ⟨"runnerB", 0, 1400, ("gg").toList⟩]⟩
      (Board.ofGoals 12345 "v9.1"
        ["a", "b", "c", "d", "e", "f", "g", "h", "i", "j", "k", "l", "m",
         "n", "o", "p", "q", "r", "s", "t", "u", "v", "w", "x", "y"]) =
    buildRaceRows
      ⟨1, mkDate 2016 7 1, ("speedrunslive.com/tools/oot-bingo/?seed=12345").toList,
       [⟨"runnerA", 3600, 1500, ("won with row 1").toList⟩,
        ⟨"runnerB", 0, 1400, ("gg").toList⟩]⟩
      (Board.ofGoals 12345 "v9.1"
        ["a", "b", "c", "d", "e", "f", "g", "h", "i", "j", "k", "l", "m",
         "n", "o", "p", "q", "r", "s", "t", "u", "v", "w", "x", "y"]) :=
  report_build_deterministic _ _ _ _ rfl rfl
